import Mathlib

set_option linter.unusedVariables false

deriving instance DecidableEq for Except

/-!
Verification of the IRC client engine (`src/irc/client/mod.rs`).

The engine multiplexes sessions over a readiness-polling loop.  Each
session owns a connection, an outbound message queue and a writability
flag.  The connection capability (`Session::recv` / `Session::try_send`)
is an external collaborator (spec section 6): we model it by a script of
outcomes consumed one per call, together with ghost logs recording the
messages the transport accepted (`sentLog`), the send failures reported
via the `error!` log (`errorLog`) and the inputs passed to the
caller-supplied message handler (`handlerLog`).
-/

namespace IrcClient

/-- Kind of an `std::io::Error`, as far as the engine inspects it:
`WouldBlock` and `TimedOut` are the two kinds classified as transient. -/
inductive IoKind where
  | wouldBlock
  | timedOut
  | otherKind
deriving DecidableEq, Repr

/-- An `irc::Error` as far as the engine inspects it: either an I/O error
with a kind, or any other error (parse errors, etc.). -/
inductive IrcError where
  | io (k : IoKind)
  | parseFail
  | otherErr
deriving DecidableEq, Repr

/-- The transient test used in `process_readable`, `process_writable` and
`SessionEntry::send`: an `ErrorKind::Io` error whose kind is `WouldBlock`
or `TimedOut`. -/
def IrcError.isTransient : IrcError → Bool
  | .io .wouldBlock => true
  | .io .timedOut => true
  | _ => false

/-- A parsed protocol message, as far as the engine inspects it:
`raw` is `Message::raw_message()` (the raw line) and `cmd` is
`Message::raw_command()`. -/
structure Msg where
  raw : String
  cmd : String
deriving DecidableEq, Repr

/-- Outcome of one `Session::try_send` call (external connection
capability, modelled as an outcome script). -/
inductive SendRes where
  | ok
  | err (e : IrcError)
deriving DecidableEq, Repr

/-- Whether a send outcome makes `process_writable` break: only an error
classified as transient does. -/
def SendRes.isTransientRes : SendRes → Bool
  | .ok => false
  | .err e => e.isTransient

/-- Outcome of one `Session::recv` call: `Ok(Some(msg))`, `Ok(None)`,
or `Err(e)` (external connection capability, modelled as a script). -/
inductive RecvRes where
  | msg (m : Msg)
  | nothing
  | err (e : IrcError)
deriving DecidableEq, Repr

/-- The `Reaction` effect algebra returned by the handler:
`None`, `RawMsg(msg)` or `Multi(reactions)`. -/
inductive Reaction where
  | none
  | rawMsg (m : Msg)
  | multi (rs : List Reaction)

/-- One session's entry in the client registry (`SessionEntry`), together
with the scripted connection it owns and the ghost logs.
`output_queue` and `is_writable` are the fields of the Rust struct;
`recvScript`/`sendScript` are the pending outcomes of the owned
connection; `sentLog` records messages the transport accepted in order;
`errorLog` records messages whose send failed non-transiently (reported
via `error!`); `handlerLog` records the inputs the handler was invoked
with, in order. -/
structure SessionEntry where
  recvScript : List RecvRes
  sendScript : List SendRes
  output_queue : List Msg
  is_writable : Bool
  sentLog : List Msg
  errorLog : List Msg
  handlerLog : List (Except IrcError Msg)
deriving Repr, DecidableEq, Inhabited

/-- Embedding of `Session::try_send`: consume the next scripted outcome; a success
delivers the message to the transport (append to `sentLog`). An empty
script stands for a transport that is not ready (would block). -/
def try_send (s : SessionEntry) (m : Msg) : SendRes × SessionEntry :=
  match s.sendScript with
  | [] => (.err (.io .wouldBlock), s)
  | .ok :: rest => (.ok, { s with sendScript := rest, sentLog := s.sentLog ++ [m] })
  | .err e :: rest => (.err e, { s with sendScript := rest })

/-- Embedding of `SessionEntry::send` (the immediate-send path used by
`process_reaction`): try to send now; on a transient failure clear
`is_writable` and push the message onto `output_queue`; on any other
failure drop the message and report it; on success nothing further. -/
def SessionEntry.send (s : SessionEntry) (session_index : Nat) (m : Msg) : SessionEntry :=
  match try_send s m with
  | (.ok, s1) => s1
  | (.err e, s1) =>
    if e.isTransient then
      { s1 with is_writable := false, output_queue := s1.output_queue ++ [m] }
    else
      { s1 with errorLog := s1.errorLog ++ [m] }

mutual

/-- Embedding of `process_reaction`: `None` does nothing, `RawMsg` is sent immediately
via `SessionEntry::send`, `Multi` processes each element in order. -/
def process_reaction (s : SessionEntry) (session_index : Nat) : Reaction → SessionEntry
  | .none => s
  | .rawMsg m => SessionEntry.send s session_index m
  | .multi rs => process_reaction_list s session_index rs

/-- The `for r in reactions` loop inside `process_reaction`'s
`Multi` arm. -/
def process_reaction_list (s : SessionEntry) (session_index : Nat) :
    List Reaction → SessionEntry
  | [] => s
  | r :: rest => process_reaction_list (process_reaction s session_index r) session_index rest

end

/-- The `for (index, msg) in session.output_queue.iter().enumerate()`
loop of `process_writable`, threading the connection state and counting
consumed messages: success consumes and continues; a transient failure
clears `is_writable` and breaks without consuming; any other failure
reports the message and consumes it anyway. -/
def flushLoop (s : SessionEntry) : List Msg → SessionEntry × Nat
  | [] => (s, 0)
  | m :: rest =>
    match try_send s m with
    | (.ok, s1) =>
      let (s2, n) := flushLoop s1 rest
      (s2, n + 1)
    | (.err e, s1) =>
      if e.isTransient then
        ({ s1 with is_writable := false }, 0)
      else
        let (s2, n) := flushLoop { s1 with errorLog := s1.errorLog ++ [m] } rest
        (s2, n + 1)

/-- Embedding of `process_writable`: walk the outbound queue from the front, then
`output_queue.drain(..msgs_consumed)` removes exactly the consumed
prefix. -/
def process_writable (s : SessionEntry) (session_index : Nat) : SessionEntry :=
  let p := flushLoop s s.output_queue
  { p.1 with output_queue := p.1.output_queue.drop p.2 }

/-- Rust `str::replacen(from, to, 1)` for one-character patterns:
replace the first occurrence of `a` by `b`. -/
def replaceFirstChar (a b : Char) : List Char → List Char
  | [] => []
  | c :: rest => if c = a then b :: rest else c :: replaceFirstChar a b rest

/-- Application of `replaceFirstChar` to a string, mirroring
`raw.replacen("I", "O", 1)`. -/
def replacen1 (s : String) (a b : Char) : String :=
  ⟨replaceFirstChar a b s.data⟩

/-- The type of the caller-supplied message handler, with the
`MessageContext` reduced to the session index it carries. -/
def Handler : Type := Nat → Except IrcError Msg → Reaction

/-- The type of the external message codec's parse function
(`str::parse::<Message>` via pircolate), an external collaborator. -/
def Parse : Type := String → Except IrcError Msg

/-- The `loop` of `process_readable`, recursing on the connection's
pending receive outcomes (`session.inner.recv()` consumes one per
iteration): a `PING` message is answered by rewriting the first `I` of
its raw text to `O` and re-parsing, bypassing the handler unless the
re-parse fails; any other message or non-transient error goes to the
handler; `Ok(None)` or a transient error breaks the loop. -/
def drainLoop (h : Handler) (p : Parse) (session_index : Nat) :
    List RecvRes → SessionEntry → SessionEntry
  | [], s => s
  | r :: rest, s =>
    match r with
    | .nothing => { s with recvScript := rest }
    | .err e =>
      if e.isTransient then { s with recvScript := rest }
      else
        let reaction := h session_index (.error e)
        let s1 := { s with recvScript := rest, handlerLog := s.handlerLog ++ [.error e] }
        drainLoop h p session_index rest (process_reaction s1 session_index reaction)
    | .msg m =>
      if m.cmd = "PING" then
        match p (replacen1 m.raw 'I' 'O') with
        | .ok pong =>
          let s1 := { s with recvScript := rest }
          drainLoop h p session_index rest (process_reaction s1 session_index (.rawMsg pong))
        | .error e =>
          let reaction := h session_index (.error e)
          let s1 := { s with recvScript := rest, handlerLog := s.handlerLog ++ [.error e] }
          drainLoop h p session_index rest (process_reaction s1 session_index reaction)
      else
        let reaction := h session_index (.ok m)
        let s1 := { s with recvScript := rest, handlerLog := s.handlerLog ++ [.ok m] }
        drainLoop h p session_index rest (process_reaction s1 session_index reaction)

/-- Embedding of `process_readable`: drain the session's pending receive outcomes. -/
def process_readable (h : Handler) (p : Parse) (s : SessionEntry)
    (session_index : Nat) : SessionEntry :=
  drainLoop h p session_index s.recvScript s

/-- The client registry: `Client { sessions: Vec<SessionEntry> }`. -/
structure Client where
  sessions : List SessionEntry
deriving Repr, DecidableEq, Inhabited

/-- One readiness event delivered by the poll: its token (the session
index it was registered with) and its readiness
(`event.readiness().is_readable()` / `is_writable()`). -/
structure MioEvent where
  token : Nat
  readable : Bool
  writable : Bool
deriving DecidableEq, Repr

/-- The body of `for event in &events` in `Client::run`, for one session:
if the event signals writable, set the flag; if the flag is (now) set,
flush the queue; if the event signals readable, drain. -/
def processEvent (h : Handler) (p : Parse) (ev : MioEvent) (s : SessionEntry)
    (session_index : Nat) : SessionEntry :=
  let s1 := if ev.writable then { s with is_writable := true } else s
  let s2 := if s1.is_writable then process_writable s1 session_index else s1
  if ev.readable then process_readable h p s2 session_index else s2

/-- Dispatch one event to the session its token names.  The source
indexes `self.sessions[session_index]` directly (a panic on an
out-of-range token, which cannot arise since tokens come from
registration); an out-of-range token leaves the registry unchanged
here. -/
def handleEvent (h : Handler) (p : Parse) (c : Client) (ev : MioEvent) : Client :=
  match c.sessions[ev.token]? with
  | some s => { sessions := c.sessions.set ev.token (processEvent h p ev s ev.token) }
  | none => c

/-- Outcome of one blocking `poll.poll(&mut events, None)` call:
a batch of readiness events, or an error (propagated by `?`). -/
inductive PollRound where
  | ok (evs : List MioEvent)
  | err (e : IrcError)
deriving Repr, DecidableEq

/-- Whether a poll outcome is a successful batch (not an error). -/
def PollRound.isOkRound : PollRound → Bool
  | .ok _ => true
  | .err _ => false

/-- The observable behaviour of the OS facilities `Client::run` consumes,
scripted: whether `mio::Poll::new()` fails, the outcome of each
session's `poll.register(...)` call in registration order, and the
outcome of each `poll.poll(...)` call in sequence. -/
structure RunScript where
  pollNew : Option IrcError
  registerResults : List (Option IrcError)
  pollResults : List PollRound
deriving Repr

/-- The first registration failure among the first `n` sessions, if any:
the `for (index, session) in self.sessions.iter().enumerate()` loop
propagates the first `Err` with `?`.  A missing script entry stands for
a successful registration. -/
def firstRegisterError : Nat → List (Option IrcError) → Option IrcError
  | 0, _ => none
  | _ + 1, [] => none
  | n + 1, r :: rest =>
    match r with
    | some e => some e
    | none => firstRegisterError n rest

/-- The `loop` of `Client::run` over the scripted poll outcomes: a poll
error is propagated out of `run` by `?`; otherwise every event of the
batch is processed and the loop continues.  The source loop never exits
normally; an exhausted script models a finite prefix of the infinite
run, returning the registry state reached, so `.ok` means "no abort
happened during this prefix". -/
def runLoop (h : Handler) (p : Parse) : List PollRound → Client → Except IrcError Client
  | [], c => .ok c
  | .err e :: _, c => .error e
  | .ok evs :: rest, c => runLoop h p rest (evs.foldl (handleEvent h p) c)

/-- Embedding of `Client::run`: construct the poll (abort on failure), register every
session's handle (abort on the first failure), then run the event
loop. -/
def Client.run (h : Handler) (p : Parse) (script : RunScript) (c : Client) :
    Except IrcError Client :=
  match script.pollNew with
  | some e => .error e
  | none =>
    match firstRegisterError c.sessions.length script.registerResults with
    | some e => .error e
    | none => runLoop h p script.pollResults c

/-- Embedding of `Client::add_session`: append a fresh entry whose queue is empty and
whose writable flag is `false`; the returned `SessionId` is the entry's
index.  The session's connection arrives as its outcome scripts. -/
def Client.add_session (c : Client) (recvS : List RecvRes) (sendS : List SendRes) :
    Client × Nat :=
  let index := c.sessions.length
  ({ sessions :=
      c.sessions ++
        [{ recvScript := recvS, sendScript := sendS, output_queue := [],
           is_writable := false, sentLog := [], errorLog := [], handlerLog := [] }] },
   index)

mutual

/-- Depth-first, left-to-right flattening of a `Reaction` into the list
of outbound messages it requests. -/
def flattenReaction : Reaction → List Msg
  | .none => []
  | .rawMsg m => [m]
  | .multi rs => flattenReactionList rs

/-- Flattening of a list of reactions, in order. -/
def flattenReactionList : List Reaction → List Msg
  | [] => []
  | r :: rest => flattenReaction r ++ flattenReactionList rest

end

/-! ## Concrete fixtures

Concrete handlers, parse functions, messages and session entries used to
instantiate the theorems below on closed inputs. -/

/-- A handler that reacts to nothing. -/
def nullHandler : Handler := fun _ _ => Reaction.none

/-- A parse function that always fails. -/
def nullParse : Parse := fun _ => .error .parseFail

/-- A handler that answers every successfully received message with one
outbound message echoing its raw text, and ignores errors. -/
def echoHandler : Handler := fun _ r =>
  match r with
  | .ok m => .rawMsg ⟨"echo " ++ m.raw, "ECHO"⟩
  | .error _ => Reaction.none

/-- A parse function recognising exactly the keepalive reply used in the
examples below. -/
def pongParse : Parse := fun str =>
  if str = "PONG :srv" then .ok ⟨"PONG :srv", "PONG"⟩ else .error .parseFail

/-- The example keepalive probe: raw text `PING :srv`, command `PING`.
Rewriting its first `I` to `O` yields `PONG :srv`, which `pongParse`
accepts and `nullParse` rejects. -/
def pingMsg : Msg := ⟨"PING :srv", "PING"⟩

/-- Example message. -/
def msgA : Msg := ⟨"one", "ONE"⟩

/-- Example message. -/
def msgB : Msg := ⟨"two", "TWO"⟩

/-- Example message. -/
def msgC : Msg := ⟨"three", "THREE"⟩

/-- A session entry with empty scripts, queue and logs and a cleared
writable flag (the state `add_session` creates, with no pending I/O). -/
def baseEntry : SessionEntry := ⟨[], [], [], false, [], [], []⟩

/-- The entry `baseEntry` with the writable flag set. -/
def entryW : SessionEntry := { baseEntry with is_writable := true }

/-- A writable-flagged entry with a two-message queue whose first send
outcome is a non-transient failure and whose second is a success. -/
def entryFatalThenOk : SessionEntry :=
  { entryW with output_queue := [msgA, msgB], sendScript := [.err .otherErr, .ok] }

/-- A writable-flagged entry with a three-message queue whose first send
outcome is a success and whose second times out. -/
def entryOkThenTimeout : SessionEntry :=
  { entryW with output_queue := [msgA, msgB, msgC], sendScript := [.ok, .err (.io .timedOut)] }

/-- A readable-only readiness event for session 0. -/
def evRead : MioEvent := ⟨0, true, false⟩

/-- A writable-only readiness event for session 0. -/
def evWrite : MioEvent := ⟨0, false, true⟩

/-- A registry with one session that will receive two ordinary messages,
and whose transport first blocks and then accepts two sends. -/
def raceClient : Client :=
  ⟨[{ baseEntry with
        recvScript := [.msg ⟨"a", "A"⟩, .msg ⟨"b", "B"⟩],
        sendScript := [.err (.io .wouldBlock), .ok, .ok] }]⟩

/-- A run script whose setup succeeds and that delivers a readable-only
event followed, one poll round later, by a writable-only event. -/
def raceScript : RunScript := ⟨none, [none], [.ok [evRead], .ok [evWrite]]⟩

/-- A run script whose setup succeeds but whose first poll wait fails. -/
def pollFailScript : RunScript := ⟨none, [none], [.err .otherErr]⟩

/-- A registry with one idle session. -/
def idleClient : Client := ⟨[baseEntry]⟩

/-- The registry state `raceClient` reaches after running `raceScript`:
the reply to `a` (produced first) sits after the reply to `b` in the
transport log. -/
def raceFinal : Client :=
  ⟨[{ baseEntry with
        is_writable := true,
        sentLog := [⟨"echo b", "ECHO"⟩, ⟨"echo a", "ECHO"⟩],
        handlerLog := [.ok ⟨"a", "A"⟩, .ok ⟨"b", "B"⟩] }]⟩

/-- A run script whose setup succeeds and whose single poll round yields
one readable-only event. -/
def okScript : RunScript := ⟨none, [none], [.ok [evRead]]⟩

/-! ## Basic preservation lemmas -/

theorem try_send_recvScript (s : SessionEntry) (m : Msg) :
    (try_send s m).2.recvScript = s.recvScript := by
  cases hs : s.sendScript with
  | nil => simp [try_send, hs]
  | cons head tail => cases head <;> simp [try_send, hs]

theorem try_send_output_queue (s : SessionEntry) (m : Msg) :
    (try_send s m).2.output_queue = s.output_queue := by
  cases hs : s.sendScript with
  | nil => simp [try_send, hs]
  | cons head tail => cases head <;> simp [try_send, hs]

theorem try_send_is_writable (s : SessionEntry) (m : Msg) :
    (try_send s m).2.is_writable = s.is_writable := by
  cases hs : s.sendScript with
  | nil => simp [try_send, hs]
  | cons head tail => cases head <;> simp [try_send, hs]

theorem try_send_handlerLog (s : SessionEntry) (m : Msg) :
    (try_send s m).2.handlerLog = s.handlerLog := by
  cases hs : s.sendScript with
  | nil => simp [try_send, hs]
  | cons head tail => cases head <;> simp [try_send, hs]

theorem send_recvScript (s : SessionEntry) (i : Nat) (m : Msg) :
    (SessionEntry.send s i m).recvScript = s.recvScript := by
  unfold SessionEntry.send
  rcases h : try_send s m with ⟨res, s1⟩
  have h1 : s1.recvScript = s.recvScript := by
    have := try_send_recvScript s m
    rw [h] at this
    exact this
  cases res with
  | ok => simpa using h1
  | err e => by_cases he : e.isTransient <;> simp [he, h1]

theorem send_handlerLog (s : SessionEntry) (i : Nat) (m : Msg) :
    (SessionEntry.send s i m).handlerLog = s.handlerLog := by
  unfold SessionEntry.send
  rcases h : try_send s m with ⟨res, s1⟩
  have h1 : s1.handlerLog = s.handlerLog := by
    have := try_send_handlerLog s m
    rw [h] at this
    exact this
  cases res with
  | ok => simpa using h1
  | err e => by_cases he : e.isTransient <;> simp [he, h1]

theorem send_is_writable_mono (s : SessionEntry) (i : Nat) (m : Msg) :
    (SessionEntry.send s i m).is_writable = true → s.is_writable = true := by
  unfold SessionEntry.send
  rcases h : try_send s m with ⟨res, s1⟩
  have h1 : s1.is_writable = s.is_writable := by
    have := try_send_is_writable s m
    rw [h] at this
    exact this
  cases res with
  | ok => intro hw; rw [← h1]; simpa using hw
  | err e => by_cases he : e.isTransient <;> simp [he, h1]

mutual

theorem process_reaction_recvScript (i : Nat) :
    ∀ (r : Reaction) (s : SessionEntry),
      (process_reaction s i r).recvScript = s.recvScript
  | .none, s => rfl
  | .rawMsg m, s => send_recvScript s i m
  | .multi rs, s => process_reaction_list_recvScript i rs s

theorem process_reaction_list_recvScript (i : Nat) :
    ∀ (rs : List Reaction) (s : SessionEntry),
      (process_reaction_list s i rs).recvScript = s.recvScript
  | [], s => rfl
  | r :: rest, s => by
    show (process_reaction_list (process_reaction s i r) i rest).recvScript = s.recvScript
    rw [process_reaction_list_recvScript i rest (process_reaction s i r),
        process_reaction_recvScript i r s]

end

mutual

theorem process_reaction_is_writable_mono (i : Nat) :
    ∀ (r : Reaction) (s : SessionEntry),
      (process_reaction s i r).is_writable = true → s.is_writable = true
  | .none, s => fun h => h
  | .rawMsg m, s => send_is_writable_mono s i m
  | .multi rs, s => process_reaction_list_is_writable_mono i rs s

theorem process_reaction_list_is_writable_mono (i : Nat) :
    ∀ (rs : List Reaction) (s : SessionEntry),
      (process_reaction_list s i rs).is_writable = true → s.is_writable = true
  | [], s => fun h => h
  | r :: rest, s => by
    show (process_reaction_list (process_reaction s i r) i rest).is_writable = true →
      s.is_writable = true
    intro h
    exact process_reaction_is_writable_mono i r s
      (process_reaction_list_is_writable_mono i rest (process_reaction s i r) h)

end

/-! ## Lemmas about the flush loop -/

theorem try_send_ok_sentLog (s : SessionEntry) (m : Msg) (s1 : SessionEntry)
    (h : try_send s m = (.ok, s1)) : s1.sentLog = s.sentLog ++ [m] := by
  cases hs : s.sendScript with
  | nil => simp [try_send, hs] at h
  | cons head tail =>
    cases head with
    | ok =>
      simp only [try_send, hs] at h
      obtain ⟨-, h2⟩ := Prod.mk.injEq .. ▸ h
      rw [← h2]
    | err e => simp [try_send, hs] at h

theorem try_send_err_sentLog (s : SessionEntry) (m : Msg) (e : IrcError) (s1 : SessionEntry)
    (h : try_send s m = (.err e, s1)) : s1.sentLog = s.sentLog := by
  cases hs : s.sendScript with
  | nil =>
    simp only [try_send, hs] at h
    obtain ⟨-, h2⟩ := Prod.mk.injEq .. ▸ h
    rw [← h2]
  | cons head tail =>
    cases head with
    | ok => simp [try_send, hs] at h
    | err e2 =>
      simp only [try_send, hs] at h
      obtain ⟨-, h2⟩ := Prod.mk.injEq .. ▸ h
      rw [← h2]

theorem try_send_set_queue (s : SessionEntry) (q : List Msg) (m : Msg) :
    try_send { s with output_queue := q } m =
      ((try_send s m).1, { (try_send s m).2 with output_queue := q }) := by
  cases hs : s.sendScript with
  | nil => simp [try_send, hs]
  | cons head tail => cases head <;> simp [try_send, hs]

theorem flushLoop_output_queue :
    ∀ (l : List Msg) (s : SessionEntry),
      (flushLoop s l).1.output_queue = s.output_queue
  | [], s => rfl
  | m :: rest, s => by
    show (flushLoop s (m :: rest)).1.output_queue = s.output_queue
    rcases h : try_send s m with ⟨res, s1⟩
    have h1 : s1.output_queue = s.output_queue := by
      have := try_send_output_queue s m
      rw [h] at this
      exact this
    cases res with
    | ok =>
      simp only [flushLoop, h]
      rw [flushLoop_output_queue rest s1, h1]
    | err e =>
      by_cases he : e.isTransient
      · simp [flushLoop, h, he, h1]
      · simp only [flushLoop, h, he, Bool.false_eq_true, if_false]
        rw [flushLoop_output_queue rest { s1 with errorLog := s1.errorLog ++ [m] }]
        exact h1

theorem flushLoop_is_writable_mono :
    ∀ (l : List Msg) (s : SessionEntry),
      (flushLoop s l).1.is_writable = true → s.is_writable = true
  | [], s => fun h => h
  | m :: rest, s => by
    show (flushLoop s (m :: rest)).1.is_writable = true → s.is_writable = true
    rcases h : try_send s m with ⟨res, s1⟩
    have h1 : s1.is_writable = s.is_writable := by
      have := try_send_is_writable s m
      rw [h] at this
      exact this
    cases res with
    | ok =>
      simp only [flushLoop, h]
      intro hw
      rw [← h1]
      exact flushLoop_is_writable_mono rest s1 hw
    | err e =>
      by_cases he : e.isTransient
      · simp [flushLoop, h, he]
      · simp only [flushLoop, h, he, Bool.false_eq_true, if_false]
        intro hw
        rw [← h1]
        exact flushLoop_is_writable_mono rest { s1 with errorLog := s1.errorLog ++ [m] } hw

theorem flushLoop_sentLog_sublist :
    ∀ (l : List Msg) (s : SessionEntry),
      ∃ t, (flushLoop s l).1.sentLog = s.sentLog ++ t ∧ t.Sublist l
  | [], s => ⟨[], by simp [flushLoop], List.nil_sublist []⟩
  | m :: rest, s => by
    rcases h : try_send s m with ⟨res, s1⟩
    cases res with
    | ok =>
      have h1 : s1.sentLog = s.sentLog ++ [m] := try_send_ok_sentLog s m s1 h
      obtain ⟨t, ht, hsub⟩ := flushLoop_sentLog_sublist rest s1
      refine ⟨m :: t, ?_, List.Sublist.cons₂ m hsub⟩
      simp only [flushLoop, h]
      rw [ht, h1]
      simp
    | err e =>
      have h1 : s1.sentLog = s.sentLog := try_send_err_sentLog s m e s1 h
      by_cases he : e.isTransient
      · exact ⟨[], by simp [flushLoop, h, he, h1], List.nil_sublist _⟩
      · obtain ⟨t, ht, hsub⟩ :=
          flushLoop_sentLog_sublist rest { s1 with errorLog := s1.errorLog ++ [m] }
        refine ⟨t, ?_, List.Sublist.cons m hsub⟩
        simp only [flushLoop, h, he, Bool.false_eq_true, if_false]
        rw [ht]
        simp [h1]

theorem flushLoop_ignores_output_queue :
    ∀ (l : List Msg) (s : SessionEntry) (q : List Msg),
      flushLoop { s with output_queue := q } l =
        ({ (flushLoop s l).1 with output_queue := q }, (flushLoop s l).2)
  | [], s, q => rfl
  | m :: rest, s, q => by
    rcases h : try_send s m with ⟨res, s1⟩
    have hq : try_send { s with output_queue := q } m = (res, { s1 with output_queue := q }) := by
      rw [try_send_set_queue, h]
    cases res with
    | ok =>
      simp only [flushLoop, h, hq]
      rw [flushLoop_ignores_output_queue rest s1 q]
    | err e =>
      by_cases he : e.isTransient
      · simp [flushLoop, h, hq, he]
      · simp only [flushLoop, h, hq, he, Bool.false_eq_true, if_false]
        rw [flushLoop_ignores_output_queue rest { s1 with errorLog := s1.errorLog ++ [m] } q]

theorem flushLoop_stopped_early_not_writable :
    ∀ (l : List Msg) (s : SessionEntry),
      (flushLoop s l).2 < l.length → (flushLoop s l).1.is_writable = false
  | [], s => by
    intro hlt
    simp [flushLoop] at hlt
  | m :: rest, s => by
    intro hlt
    rcases h : try_send s m with ⟨res, s1⟩
    cases res with
    | ok =>
      simp only [flushLoop, h] at hlt ⊢
      exact flushLoop_stopped_early_not_writable rest s1 (by
        simpa [List.length_cons, Nat.add_lt_add_iff_right] using hlt)
    | err e =>
      by_cases he : e.isTransient
      · simp [flushLoop, h, he]
      · simp only [flushLoop, h, he, Bool.false_eq_true, if_false] at hlt ⊢
        exact flushLoop_stopped_early_not_writable rest _ (by
          simpa [List.length_cons, Nat.add_lt_add_iff_right] using hlt)

theorem flushLoop_cons_ok (s : SessionEntry) (m : Msg) (rest : List Msg)
    (srest : List SendRes) (hsc : s.sendScript = .ok :: srest) :
    flushLoop s (m :: rest) =
      ((flushLoop { s with sendScript := srest, sentLog := s.sentLog ++ [m] } rest).1,
       (flushLoop { s with sendScript := srest, sentLog := s.sentLog ++ [m] } rest).2 + 1) := by
  have hts : try_send s m =
      (.ok, { s with sendScript := srest, sentLog := s.sentLog ++ [m] }) := by
    simp [try_send, hsc]
  simp only [flushLoop, hts]

theorem flushLoop_cons_err_nontransient (s : SessionEntry) (m : Msg) (rest : List Msg)
    (e : IrcError) (srest : List SendRes)
    (hsc : s.sendScript = .err e :: srest) (hne : e.isTransient = false) :
    flushLoop s (m :: rest) =
      ((flushLoop { s with sendScript := srest, errorLog := s.errorLog ++ [m] } rest).1,
       (flushLoop { s with sendScript := srest, errorLog := s.errorLog ++ [m] } rest).2 + 1) := by
  have hts : try_send s m = (.err e, { s with sendScript := srest }) := by
    simp [try_send, hsc]
  simp only [flushLoop, hts, hne, Bool.false_eq_true, if_false]

theorem flushLoop_cons_transient (s : SessionEntry) (m : Msg) (rest : List Msg)
    (e : IrcError) (srest : List SendRes)
    (hsc : s.sendScript = .err e :: srest) (ht : e.isTransient = true) :
    flushLoop s (m :: rest) = ({ s with sendScript := srest, is_writable := false }, 0) := by
  have hts : try_send s m = (.err e, { s with sendScript := srest }) := by
    simp [try_send, hsc]
  simp only [flushLoop, hts, ht, if_true]

theorem flushLoop_transient_split :
    ∀ (qpre : List Msg) (spre : List SendRes) (s : SessionEntry) (m : Msg)
      (qrest : List Msg) (e : IrcError) (srest : List SendRes),
      s.sendScript = spre ++ .err e :: srest →
      qpre.length = spre.length →
      (∀ x ∈ spre, x.isTransientRes = false) →
      e.isTransient = true →
      (flushLoop s (qpre ++ m :: qrest)).2 = qpre.length ∧
      (flushLoop s (qpre ++ m :: qrest)).1.is_writable = false ∧
      (flushLoop s (qpre ++ m :: qrest)).1.output_queue = s.output_queue ∧
      ∃ t, (flushLoop s (qpre ++ m :: qrest)).1.sentLog = s.sentLog ++ t ∧ t.Sublist qpre
  | [], spre, s, m, qrest, e, srest, hsc, hlen, hpre, ht => by
    have hspre : spre = [] := List.eq_nil_of_length_eq_zero hlen.symm
    subst hspre
    rw [List.nil_append] at hsc
    rw [List.nil_append, flushLoop_cons_transient s m qrest e srest hsc ht]
    exact ⟨rfl, rfl, rfl, [], by simp, List.nil_sublist _⟩
  | q0 :: qpre2, [], s, m, qrest, e, srest, hsc, hlen, hpre, ht => by
    simp at hlen
  | q0 :: qpre2, s0 :: spre2, s, m, qrest, e, srest, hsc, hlen, hpre, ht => by
    have hlen2 : qpre2.length = spre2.length := by simpa using hlen
    have hpre2 : ∀ x ∈ spre2, x.isTransientRes = false :=
      fun x hx => hpre x (List.mem_cons_of_mem s0 hx)
    rw [List.cons_append]
    cases s0 with
    | ok =>
      rw [List.cons_append] at hsc
      rw [flushLoop_cons_ok s q0 (qpre2 ++ m :: qrest) (spre2 ++ .err e :: srest) hsc]
      obtain ⟨h1, h2, h3, t, h4, h5⟩ :=
        flushLoop_transient_split qpre2 spre2
          { s with sendScript := spre2 ++ .err e :: srest, sentLog := s.sentLog ++ [q0] }
          m qrest e srest rfl hlen2 hpre2 ht
      refine ⟨by simpa using h1, h2, by simpa using h3, q0 :: t, ?_, h5.cons₂ q0⟩
      rw [h4]
      simp
    | err e0 =>
      have hne : e0.isTransient = false := hpre (.err e0) (List.mem_cons_self _ _)
      rw [List.cons_append] at hsc
      rw [flushLoop_cons_err_nontransient s q0 (qpre2 ++ m :: qrest) e0
            (spre2 ++ .err e :: srest) hsc hne]
      obtain ⟨h1, h2, h3, t, h4, h5⟩ :=
        flushLoop_transient_split qpre2 spre2
          { s with sendScript := spre2 ++ .err e :: srest, errorLog := s.errorLog ++ [q0] }
          m qrest e srest rfl hlen2 hpre2 ht
      refine ⟨by simpa using h1, h2, by simpa using h3, t, ?_, h5.cons q0⟩
      rw [h4]

/-! ## Lemmas about the drain loop and the run loop -/

theorem drainLoop_is_writable_mono (h : Handler) (p : Parse) (i : Nat) :
    ∀ (l : List RecvRes) (s : SessionEntry),
      (drainLoop h p i l s).is_writable = true → s.is_writable = true
  | [], s => fun hw => hw
  | r :: rest, s => by
    intro hw
    cases r with
    | nothing => simpa [drainLoop] using hw
    | err e =>
      by_cases he : e.isTransient
      · simp only [drainLoop, he, if_true] at hw
        simpa using hw
      · simp only [drainLoop, he, Bool.false_eq_true, if_false] at hw
        have h2 := drainLoop_is_writable_mono h p i rest _ hw
        have h3 := process_reaction_is_writable_mono i _ _ h2
        exact h3
    | msg m =>
      by_cases hping : m.cmd = "PING"
      · cases hp : p (replacen1 m.raw 'I' 'O') with
        | ok pong =>
          simp only [drainLoop, hping, hp, if_true] at hw
          have h2 := drainLoop_is_writable_mono h p i rest _ hw
          have h3 := process_reaction_is_writable_mono i _ _ h2
          exact h3
        | error e =>
          simp only [drainLoop, hping, hp, if_true] at hw
          have h2 := drainLoop_is_writable_mono h p i rest _ hw
          have h3 := process_reaction_is_writable_mono i _ _ h2
          exact h3
      · simp only [drainLoop, hping, if_false] at hw
        have h2 := drainLoop_is_writable_mono h p i rest _ hw
        have h3 := process_reaction_is_writable_mono i _ _ h2
        exact h3

theorem runLoop_all_ok (h : Handler) (p : Parse) :
    ∀ (l : List PollRound) (c : Client),
      (∀ r ∈ l, r.isOkRound = true) → ∃ c2, runLoop h p l c = .ok c2
  | [], c, _ => ⟨c, rfl⟩
  | .err e :: rest, c, hok =>
    absurd (hok (.err e) (List.mem_cons_self _ _)) Bool.false_ne_true
  | .ok evs :: rest, c, hok =>
    runLoop_all_ok h p rest (evs.foldl (handleEvent h p) c)
      (fun r hr => hok r (List.mem_cons_of_mem _ hr))

/-! ## Lemmas about reaction flattening -/

theorem process_reaction_list_eq_foldl (i : Nat) :
    ∀ (rs : List Reaction) (s : SessionEntry),
      process_reaction_list s i rs = rs.foldl (fun t x => process_reaction t i x) s
  | [], s => rfl
  | r :: rest, s => by
    show process_reaction_list (process_reaction s i r) i rest = _
    rw [process_reaction_list_eq_foldl i rest (process_reaction s i r)]
    rfl

mutual

theorem process_reaction_eq_foldl_flatten (i : Nat) :
    ∀ (r : Reaction) (s : SessionEntry),
      process_reaction s i r =
        (flattenReaction r).foldl (fun t m => SessionEntry.send t i m) s
  | .none, s => rfl
  | .rawMsg m, s => rfl
  | .multi rs, s => process_reaction_list_eq_foldl_flatten i rs s

theorem process_reaction_list_eq_foldl_flatten (i : Nat) :
    ∀ (rs : List Reaction) (s : SessionEntry),
      process_reaction_list s i rs =
        (flattenReactionList rs).foldl (fun t m => SessionEntry.send t i m) s
  | [], s => rfl
  | r :: rest, s => by
    show process_reaction_list (process_reaction s i r) i rest = _
    rw [process_reaction_list_eq_foldl_flatten i rest (process_reaction s i r),
        process_reaction_eq_foldl_flatten i r s]
    show _ = (flattenReaction r ++ flattenReactionList rest).foldl
      (fun t m => SessionEntry.send t i m) s
    rw [List.foldl_append]

end

/-! ## Lemmas about event processing -/

theorem processEvent_no_writable_event (h : Handler) (p : Parse) (ev : MioEvent)
    (s : SessionEntry) (i : Nat) (hev : ev.writable = false) :
    processEvent h p ev s i =
      if ev.readable then
        process_readable h p (if s.is_writable then process_writable s i else s) i
      else if s.is_writable then process_writable s i else s := by
  simp only [processEvent, hev, Bool.false_eq_true, if_false]

theorem processEvent_is_writable_mono (h : Handler) (p : Parse) (ev : MioEvent)
    (s : SessionEntry) (i : Nat) :
    (processEvent h p ev s i).is_writable = true →
      s.is_writable = true ∨ ev.writable = true := by
  intro hw
  by_cases hev : ev.writable = true
  · exact Or.inr hev
  · left
    rw [Bool.not_eq_true] at hev
    rw [processEvent_no_writable_event h p ev s i hev] at hw
    by_cases hsw : s.is_writable = true
    · exact hsw
    · rw [Bool.not_eq_true] at hsw
      simp only [hsw, Bool.false_eq_true, if_false] at hw
      cases hr : ev.readable with
      | true =>
        simp only [hr, if_true] at hw
        exact drainLoop_is_writable_mono h p i s.recvScript s hw
      | false =>
        simp only [hr, Bool.false_eq_true, if_false] at hw
        rw [hsw] at hw
        exact absurd hw Bool.false_ne_true

/-! ## Claims -/

/-- C5 (confirmed): processing a `Reaction` is equivalent to
processing its depth-first left-to-right flattening: a `None` reaction
leaves the session state unchanged (no outbound messages), processing a
`Multi` list produces exactly the state reached by sequentially
processing each element in order as if each had been returned alone, and
in general processing equals immediately sending each message of the
flattening in order. -/
theorem C5_reaction_flattening (s : SessionEntry) (i : Nat) (r : Reaction)
    (rs : List Reaction) :
    process_reaction s i .none = s ∧
    process_reaction s i (.multi rs) =
      rs.foldl (fun t x => process_reaction t i x) s ∧
    process_reaction s i r =
      (flattenReaction r).foldl (fun t m => SessionEntry.send t i m) s :=
  ⟨rfl, process_reaction_list_eq_foldl i rs s, process_reaction_eq_foldl_flatten i r s⟩

/-- C9 (confirmed): for an event resolved to a session whose writable
flag is already set, the outbound flush runs before any read-drain of
that event, even when the event signals only readability
(`ev.writable` is arbitrary here; the drain, when the event is readable,
starts from the flushed state). -/
theorem C9_flush_precedes_drain (h : Handler) (p : Parse) (ev : MioEvent)
    (s : SessionEntry) (i : Nat) (hw : s.is_writable = true) :
    processEvent h p ev s i =
      if ev.readable then process_readable h p (process_writable s i) i
      else process_writable s i := by
  have h1 : (if ev.writable then { s with is_writable := true } else s) = s := by
    cases hev : ev.writable
    · rfl
    · rw [← hw, if_pos rfl]
  simp only [processEvent, h1, hw, if_true]

/-- Witness for C9: a concrete writable-flagged session receiving a
readable-only event. -/
theorem C9_flush_precedes_drain_witness :
    entryW.is_writable = true ∧
    processEvent nullHandler nullParse evRead entryW 0 =
      if evRead.readable then
        process_readable nullHandler nullParse (process_writable entryW 0) 0
      else process_writable entryW 0 :=
  ⟨rfl, C9_flush_precedes_drain nullHandler nullParse evRead entryW 0 rfl⟩

/-- C10 (confirmed): a successful send never raises the writable flag
(`try_send` leaves the flag untouched, and the immediate send, the
flush and the read-drain can only lower it); within one event, the flag
can go from false to true only when the event itself signals
writability. -/
theorem C10_flag_raised_only_by_writable_event :
    (∀ s m, (try_send s m).2.is_writable = s.is_writable) ∧
    (∀ s i m, (SessionEntry.send s i m).is_writable = true → s.is_writable = true) ∧
    (∀ s i, (process_writable s i).is_writable = true → s.is_writable = true) ∧
    (∀ h p s i, (process_readable h p s i).is_writable = true → s.is_writable = true) ∧
    (∀ h p ev s i, (processEvent h p ev s i).is_writable = true →
      s.is_writable = true ∨ ev.writable = true) :=
  ⟨try_send_is_writable,
   send_is_writable_mono,
   fun s i hw => flushLoop_is_writable_mono s.output_queue s hw,
   fun h p s i hw => drainLoop_is_writable_mono h p i s.recvScript s hw,
   processEvent_is_writable_mono⟩

/-- Witness for C10 at concrete inputs: a successful immediate send on a
writable-flagged session, whose flag stays raised, and an event carrying
writability. -/
theorem C10_flag_raised_only_by_writable_event_witness :
    ((try_send { entryW with sendScript := [.ok] } msgA).2.is_writable =
      ({ entryW with sendScript := [.ok] } : SessionEntry).is_writable) ∧
    ({ entryW with sendScript := [.ok] } : SessionEntry).is_writable = true ∧
    (entryW.is_writable = true ∨ evWrite.writable = true) :=
  ⟨C10_flag_raised_only_by_writable_event.1 { entryW with sendScript := [.ok] } msgA,
   C10_flag_raised_only_by_writable_event.2.1 { entryW with sendScript := [.ok] } 0 msgA rfl,
   C10_flag_raised_only_by_writable_event.2.2.2.2 nullHandler nullParse evWrite entryW 0 rfl⟩

/-- C8 (confirmed): the writable flag is pessimistic: a freshly
registered entry has it cleared; an event that does not signal
writability can never raise it; a transient immediate-send failure
clears it; and a flush that stops before consuming its whole queue (the
transient break) leaves it cleared. -/
theorem C8_writable_flag_pessimistic :
    (∀ (c : Client) recvS sendS,
      ((Client.add_session c recvS sendS).1.sessions.getLast?.map
        (fun en => en.is_writable)) = some false) ∧
    (∀ h p ev s i, ev.writable = false → s.is_writable = false →
      (processEvent h p ev s i).is_writable = false) ∧
    (∀ s i m e s1, try_send s m = (.err e, s1) → e.isTransient = true →
      (SessionEntry.send s i m).is_writable = false) ∧
    (∀ s i, (flushLoop s s.output_queue).2 < s.output_queue.length →
      (process_writable s i).is_writable = false) := by
  refine ⟨?_, ?_, ?_, ?_⟩
  · intro c recvS sendS
    simp [Client.add_session]
  · intro h p ev s i hev hs
    cases hres : (processEvent h p ev s i).is_writable with
    | false => rfl
    | true =>
      rcases processEvent_is_writable_mono h p ev s i hres with h1 | h1
      · rw [hs] at h1
        exact absurd h1 Bool.false_ne_true
      · rw [hev] at h1
        exact absurd h1 Bool.false_ne_true
  · intro s i m e s1 hts he
    unfold SessionEntry.send
    rw [hts]
    simp [he]
  · intro s i hlt
    exact flushLoop_stopped_early_not_writable s.output_queue s hlt

/-- Witness for C8 at concrete inputs: a readable-only event on a
non-writable session, an immediate send hitting would-block, and a flush
whose first send would block. -/
theorem C8_writable_flag_pessimistic_witness :
    (processEvent nullHandler nullParse evRead baseEntry 0).is_writable = false ∧
    (SessionEntry.send { baseEntry with sendScript := [.err (.io .wouldBlock)] } 0
      msgA).is_writable = false ∧
    (process_writable { entryW with output_queue := [msgA] } 0).is_writable = false :=
  ⟨C8_writable_flag_pessimistic.2.1 nullHandler nullParse evRead baseEntry 0 rfl rfl,
   C8_writable_flag_pessimistic.2.2.1 { baseEntry with sendScript := [.err (.io .wouldBlock)] }
     0 msgA (.io .wouldBlock) baseEntry rfl rfl,
   C8_writable_flag_pessimistic.2.2.2 { entryW with output_queue := [msgA] } 0 (by decide)⟩

/-- C7 (confirmed): during a read-drain, a non-transient receive
error is delivered to the handler as an error input, the handler's
reaction is processed, and the drain continues with another receive;
a transient (would-block / timed-out) receive failure ends the drain
with no handler invocation and no other state change. -/
theorem C7_recv_error_paths (h : Handler) (p : Parse) (i : Nat) (s : SessionEntry)
    (e : IrcError) (rest : List RecvRes) (hs : s.recvScript = .err e :: rest) :
    (e.isTransient = false →
      process_readable h p s i =
        process_readable h p
          (process_reaction
            { s with recvScript := rest, handlerLog := s.handlerLog ++ [.error e] } i
            (h i (.error e))) i) ∧
    (e.isTransient = true →
      process_readable h p s i = { s with recvScript := rest }) := by
  constructor
  · intro hne
    show drainLoop h p i s.recvScript s = _
    rw [hs]
    simp only [drainLoop, hne, Bool.false_eq_true, if_false]
    show _ = drainLoop h p i
      (process_reaction
        { s with recvScript := rest, handlerLog := s.handlerLog ++ [.error e] } i
        (h i (.error e))).recvScript _
    rw [process_reaction_recvScript]
  · intro ht
    show drainLoop h p i s.recvScript s = _
    rw [hs]
    simp only [drainLoop, ht, if_true]

/-- Witness for C7: a concrete non-transient receive error followed by an
empty script, under the null handler, and a concrete transient one. -/
theorem C7_recv_error_paths_witness :
    (process_readable nullHandler nullParse
        { baseEntry with recvScript := [.err .otherErr] } 0 =
      process_readable nullHandler nullParse
        (process_reaction
          { { baseEntry with recvScript := [.err .otherErr] } with
              recvScript := [],
              handlerLog :=
                ({ baseEntry with recvScript := [.err .otherErr] } :
                  SessionEntry).handlerLog ++ [.error .otherErr] } 0
          (nullHandler 0 (.error .otherErr))) 0) ∧
    (process_readable nullHandler nullParse
        { baseEntry with recvScript := [.err (.io .timedOut)] } 0 =
      { { baseEntry with recvScript := [.err (.io .timedOut)] } with recvScript := [] }) :=
  ⟨(C7_recv_error_paths nullHandler nullParse 0
      { baseEntry with recvScript := [.err .otherErr] } .otherErr [] rfl).1 rfl,
   (C7_recv_error_paths nullHandler nullParse 0
      { baseEntry with recvScript := [.err (.io .timedOut)] } (.io .timedOut) [] rfl).2 rfl⟩

/-- C4 (confirmed): a received `PING` is answered by replacing the
first `I` of its raw text with `O` and re-parsing: on re-parse success
the drain continues exactly as if the handler had returned the
one-message reaction `RawMsg(pong)` — the handler is not invoked and the
handler log is untouched; on re-parse failure the parse error is
delivered to the handler as an error input instead. -/
theorem C4_ping_keepalive (h : Handler) (p : Parse) (i : Nat) (s : SessionEntry)
    (m : Msg) (rest : List RecvRes)
    (hs : s.recvScript = .msg m :: rest) (hping : m.cmd = "PING") :
    (∀ pong, p (replacen1 m.raw 'I' 'O') = .ok pong →
      process_readable h p s i =
        process_readable h p
          (process_reaction { s with recvScript := rest } i (.rawMsg pong)) i) ∧
    (∀ e, p (replacen1 m.raw 'I' 'O') = .error e →
      process_readable h p s i =
        process_readable h p
          (process_reaction
            { s with recvScript := rest, handlerLog := s.handlerLog ++ [.error e] } i
            (h i (.error e))) i) := by
  constructor
  · intro pong hp
    show drainLoop h p i s.recvScript s = _
    rw [hs]
    simp only [drainLoop, hping, hp, if_true]
    show _ = drainLoop h p i
      (process_reaction { s with recvScript := rest } i (.rawMsg pong)).recvScript _
    rw [process_reaction_recvScript]
  · intro e hp
    show drainLoop h p i s.recvScript s = _
    rw [hs]
    simp only [drainLoop, hping, hp, if_true]
    show _ = drainLoop h p i
      (process_reaction
        { s with recvScript := rest, handlerLog := s.handlerLog ++ [.error e] } i
        (h i (.error e))).recvScript _
    rw [process_reaction_recvScript]

/-- Witness for C4: the concrete probe under a parse function that
accepts the derived reply (success path) and one that rejects it
(fallback path). -/
theorem C4_ping_keepalive_witness :
    (process_readable echoHandler pongParse
        { entryW with recvScript := [.msg pingMsg], sendScript := [.ok] } 0 =
      process_readable echoHandler pongParse
        (process_reaction
          { { entryW with recvScript := [.msg pingMsg], sendScript := [.ok] } with
              recvScript := [] } 0 (.rawMsg ⟨"PONG :srv", "PONG"⟩)) 0) ∧
    (process_readable echoHandler nullParse
        { entryW with recvScript := [.msg pingMsg], sendScript := [.ok] } 0 =
      process_readable echoHandler nullParse
        (process_reaction
          { { entryW with recvScript := [.msg pingMsg], sendScript := [.ok] } with
              recvScript := [],
              handlerLog :=
                ({ entryW with recvScript := [.msg pingMsg], sendScript := [.ok] } :
                  SessionEntry).handlerLog ++ [.error .parseFail] } 0
          (echoHandler 0 (.error .parseFail))) 0) :=
  ⟨(C4_ping_keepalive echoHandler pongParse 0
      { entryW with recvScript := [.msg pingMsg], sendScript := [.ok] }
      pingMsg [] rfl rfl).1 ⟨"PONG :srv", "PONG"⟩ rfl,
   (C4_ping_keepalive echoHandler nullParse 0
      { entryW with recvScript := [.msg pingMsg], sendScript := [.ok] }
      pingMsg [] rfl rfl).2 .parseFail rfl⟩

/-- C6 (confirmed): when a queued message's send fails with a
non-transient error during a flush, that message is counted consumed
(hence removed by the final drain), the failure is appended to the
report log, and flushing continues with the remaining queue; in the
two-message instance with M1 failing non-transiently and M2 succeeding,
the end state is an empty queue, M2 delivered and M1 reported. -/
theorem C6_nontransient_send_drops_reports_continues (s : SessionEntry) (i : Nat)
    (m1 : Msg) (rest : List Msg) (e : IrcError) (srest : List SendRes)
    (hq : s.output_queue = m1 :: rest) (hsc : s.sendScript = .err e :: srest)
    (hne : e.isTransient = false) :
    (flushLoop s (m1 :: rest) =
      ((flushLoop { s with sendScript := srest, errorLog := s.errorLog ++ [m1] } rest).1,
       (flushLoop { s with sendScript := srest, errorLog := s.errorLog ++ [m1] } rest).2
         + 1)) ∧
    (process_writable s i).output_queue =
      rest.drop
        (flushLoop { s with sendScript := srest, errorLog := s.errorLog ++ [m1] } rest).2 ∧
    (∀ m2, rest = [m2] → srest = [.ok] →
      (process_writable s i).output_queue = [] ∧
      (process_writable s i).sentLog = s.sentLog ++ [m2] ∧
      (process_writable s i).errorLog = s.errorLog ++ [m1]) := by
  have hstep := flushLoop_cons_err_nontransient s m1 rest e srest hsc hne
  refine ⟨hstep, ?_, ?_⟩
  · show (flushLoop s s.output_queue).1.output_queue.drop (flushLoop s s.output_queue).2 = _
    rw [hq, hstep]
    show (flushLoop { s with sendScript := srest, errorLog := s.errorLog ++ [m1] }
      rest).1.output_queue.drop
        ((flushLoop { s with sendScript := srest, errorLog := s.errorLog ++ [m1] }
          rest).2 + 1) = _
    rw [flushLoop_output_queue]
    show s.output_queue.drop _ = _
    rw [hq, List.drop_succ_cons]
  · intro m2 h2 h3
    subst h2 h3
    obtain ⟨rs, ss, oq, w, sl, el, hl⟩ := s
    simp only at hq hsc
    subst hq hsc
    simp [process_writable, flushLoop, try_send, hne]

/-- Witness for C6: a two-message queue whose first send fails fatally
and whose second succeeds. -/
theorem C6_nontransient_send_drops_reports_continues_witness :
    (process_writable entryFatalThenOk 0).output_queue = [] ∧
    (process_writable entryFatalThenOk 0).sentLog = entryFatalThenOk.sentLog ++ [msgB] ∧
    (process_writable entryFatalThenOk 0).errorLog = entryFatalThenOk.errorLog ++ [msgA] :=
  (C6_nontransient_send_drops_reports_continues entryFatalThenOk
    0 msgA [msgB] .otherErr [.ok] rfl rfl rfl).2.2 msgB rfl rfl

/-- C3 (confirmed): if a flush meets a transient failure on the Nth
queue message after N-1 non-transient outcomes, then exactly the first
N-1 messages are removed, the Nth message and all after it stay in the
queue in order, the writable flag ends false, and the messages delivered
by the flush are a subsequence of the removed prefix (so nothing is
duplicated). -/
theorem C3_transient_flush_boundary (s : SessionEntry) (i : Nat) (qpre : List Msg)
    (m : Msg) (qrest : List Msg) (spre : List SendRes) (e : IrcError)
    (srest : List SendRes)
    (hq : s.output_queue = qpre ++ m :: qrest)
    (hsc : s.sendScript = spre ++ .err e :: srest)
    (hlen : qpre.length = spre.length)
    (hpre : ∀ x ∈ spre, x.isTransientRes = false)
    (ht : e.isTransient = true) :
    (process_writable s i).output_queue = m :: qrest ∧
    (process_writable s i).is_writable = false ∧
    ∃ t, (process_writable s i).sentLog = s.sentLog ++ t ∧ t.Sublist qpre := by
  obtain ⟨hn, hw2, hoq, t, hsl, hsub⟩ :=
    flushLoop_transient_split qpre spre s m qrest e srest hsc hlen hpre ht
  refine ⟨?_, ?_, t, ?_, hsub⟩
  · show (flushLoop s s.output_queue).1.output_queue.drop (flushLoop s s.output_queue).2 = _
    rw [hq, hoq, hn, hq]
    exact List.drop_left qpre (m :: qrest)
  · show (flushLoop s s.output_queue).1.is_writable = false
    rw [hq]
    exact hw2
  · show (flushLoop s s.output_queue).1.sentLog = s.sentLog ++ t
    rw [hq]
    exact hsl

/-- Witness for C3: a three-message queue whose first send succeeds and
whose second times out. -/
theorem C3_transient_flush_boundary_witness :
    (process_writable entryOkThenTimeout 0).output_queue = [msgB, msgC] ∧
    (process_writable entryOkThenTimeout 0).is_writable = false :=
  ⟨(C3_transient_flush_boundary entryOkThenTimeout
      0 [msgA] msgB [msgC] [.ok] (.io .timedOut) [] rfl rfl rfl
      (by decide) rfl).1,
   (C3_transient_flush_boundary entryOkThenTimeout
      0 [msgA] msgB [msgC] [.ok] (.io .timedOut) [] rfl rfl rfl
      (by decide) rfl).2.1⟩

/-- C2 counterexample: per-session outbound FIFO across the
queue/immediate-send boundary fails on the code.  In the concrete run
`raceScript` over `raceClient`, the handler's reply to `a` (namely
`echo a`) is produced before its reply to `b` (`echo b`), as the handler
log records; the first reply hits would-block and is queued, the second
is sent immediately, and the queued one is flushed only on the later
writable event — so the transport log ends `[echo b, echo a]`: the
earlier-produced message is delivered after the later one. -/
theorem C2_fifo_counterexample :
    Client.run echoHandler nullParse raceScript raceClient = .ok raceFinal ∧
    raceFinal.sessions.map (fun en => en.handlerLog) =
      [[.ok ⟨"a", "A"⟩, .ok ⟨"b", "B"⟩]] ∧
    raceFinal.sessions.map (fun en => en.sentLog) =
      [[⟨"echo b", "ECHO"⟩, ⟨"echo a", "ECHO"⟩]] := by
  decide

/-- C2 amended (corrected): FIFO holds among queued messages — a
flush appends to the transport log a subsequence of the outbound queue
in queue order (never reordered, never duplicated); the original
cross-boundary guarantee fails because an immediate send attempted while
earlier messages remain queued may overtake them, as the concrete run
above shows. -/
theorem C2_flush_preserves_queue_order (s : SessionEntry) (i : Nat) :
    ∃ t, (process_writable s i).sentLog = s.sentLog ++ t ∧
      t.Sublist s.output_queue := by
  obtain ⟨t, h1, h2⟩ := flushLoop_sentLog_sublist s.output_queue s
  exact ⟨t, h1, h2⟩

/-- C1 counterexample: `run` can return an error even though the
polling instance was constructed and every registration succeeded: a
failing `poll.poll` call is propagated out of the loop by `?`
(line 88 of the source), a third abort cause the claim omits. -/
theorem C1_abort_counterexample :
    pollFailScript.pollNew = none ∧
    firstRegisterError idleClient.sessions.length pollFailScript.registerResults = none ∧
    Client.run nullHandler nullParse pollFailScript idleClient = .error .otherErr := by
  decide

/-- C1 amended (corrected): `run` returns an error only when the
polling instance cannot be constructed, when registering a session's
handle fails, or when a wait on the polling instance fails; if the setup
succeeds and no poll wait fails, `run` never returns an error during the
scripted prefix. -/
theorem C1_run_aborts_only_on_setup_or_poll_failure (h : Handler) (p : Parse)
    (script : RunScript) (c : Client)
    (h1 : script.pollNew = none)
    (h2 : firstRegisterError c.sessions.length script.registerResults = none)
    (h3 : ∀ r ∈ script.pollResults, r.isOkRound = true) :
    ∃ c2, Client.run h p script c = .ok c2 := by
  unfold Client.run
  rw [h1, h2]
  exact runLoop_all_ok h p script.pollResults c h3

/-- Witness for the amended C1: a concrete run whose setup succeeds and
whose single poll round succeeds. -/
theorem C1_run_aborts_only_on_setup_or_poll_failure_witness :
    okScript.pollNew = none ∧
    firstRegisterError idleClient.sessions.length okScript.registerResults = none ∧
    ∃ c2, Client.run nullHandler nullParse okScript idleClient = .ok c2 :=
  ⟨rfl, rfl,
   C1_run_aborts_only_on_setup_or_poll_failure nullHandler nullParse okScript idleClient
     rfl rfl (by decide)⟩

end IrcClient
